import Mathlib

/-
Verification development for the cyber-alert-mgr repository.

The pipeline under study lives in:
  server/services/fetchAlerts.js   (source fetching, per-source upsert batches)
  server/services/processAlerts.js (YARA rule generation, MITRE mapping)
  server/services/deduplication.js (duplicate-alert removal, orphan cleanup)
  server/db.js                     (SQLite schema: unique keys, CHECK constraints)
  server/index.js                  (HTTP endpoints, job lock)

The JavaScript code is embedded shallowly: tables become lists of records,
SQL statements become list transformations, JavaScript strings become Lean
String values, and the only impure inputs (wall-clock timestamps from
new Date().toISOString() and random UUIDs from crypto.randomUUID()) become
explicit parameters (a String timestamp and a Nat counter).  TEXT timestamp
columns that are only compared for order (published_date) are modelled as
Nat, since ISO-8601 strings compare lexicographically in date order.
-/

set_option maxRecDepth 100000

namespace CyberAlert

/-! ## JavaScript string primitives -/

/-- Boolean prefix test on character lists. -/
def prefixOfB : List Char → List Char → Bool
  | [], _ => true
  | _ :: _, [] => false
  | a :: as, b :: bs => a == b && prefixOfB as bs

/-- Boolean infix test on character lists. -/
def infixOfB (needle : List Char) : List Char → Bool
  | [] => prefixOfB needle []
  | b :: bs => prefixOfB needle (b :: bs) || infixOfB needle bs

/-- JavaScript s.includes(needle): substring containment. -/
def includes (hay needle : String) : Bool :=
  infixOfB needle.data hay.data

/-- JavaScript toLowerCase, restricted to ASCII (all keywords in the code are ASCII). -/
def toLowerJS (s : String) : String :=
  String.mk (s.data.map Char.toLower)

/-- JavaScript s.replace(/[^a-zA-Z0-9_]/g, underscore) used for YARA rule names. -/
def sanitizeIdent (s : String) : String :=
  String.mk (s.data.map (fun c => if c.isAlphanum || c == '_' then c else '_'))

/-- JavaScript s.substring(0, n) (code units there, characters here). -/
def takeJS (s : String) (n : Nat) : String :=
  String.mk (s.data.take n)

/-- JavaScript s.endsWith(suffix). -/
def endsWithJS (s suffix : String) : Bool :=
  prefixOfB suffix.data.reverse s.data.reverse

/-- Replacement loop of JavaScript s.replace(/pat/g, rep) for a literal
pattern: leftmost non-overlapping occurrences, scanning left to right.
Fuel is the text length. -/
def replaceLoop (pat rep : List Char) : Nat → List Char → List Char
  | 0, l => l
  | _ + 1, [] => []
  | fuel + 1, c :: rest =>
    if prefixOfB pat (c :: rest) && !pat.isEmpty then
      rep ++ replaceLoop pat rep fuel ((c :: rest).drop pat.length)
    else c :: replaceLoop pat rep fuel rest

/-- JavaScript s.replace(/pat/g, rep) for a literal pattern. -/
def replaceAllJS (s pat rep : String) : String :=
  String.mk (replaceLoop pat.data rep.data s.data.length s.data)

/-- JavaScript s.trim().split(one space)[0]: drop leading spaces, then
keep characters up to the first space. -/
def firstTokenJS (s : String) : String :=
  String.mk ((s.data.dropWhile (fun c => c == ' ')).takeWhile (fun c => !(c == ' ')))

/-- JavaScript s.replace(/[0-9]+$/, star): replace a trailing digit run by a star;
if there is no trailing digit the string is unchanged. -/
def stripTrailingDigitsStar (s : String) : String :=
  let r := s.data.reverse
  if (r.takeWhile Char.isDigit).isEmpty then s
  else String.mk ((r.dropWhile Char.isDigit).reverse ++ ['*'])

/-! ## Attack-category detection (processAlerts.js, detectAttackType) -/

/-- detectAttackType from processAlerts.js.  The first branch of the source is
a nested if: the outer condition tests sql or injection or database and the
inner one tests sql; only when both hold does it return; otherwise control
falls through to the later branches.  The nesting is flattened here with a
Boolean conjunction, which is the same control flow. -/
def detectAttackType (text : String) : Option String :=
  let t := toLowerJS text
  if (includes t "sql" || includes t "injection" || includes t "database") && includes t "sql" then
    some "sql_injection"
  else if includes t "xss" || includes t "cross-site" || includes t "scripting" then
    some "xss"
  else if includes t "traversal" || includes t "directory" || includes t "../" then
    some "path_traversal"
  else if includes t "command" && (includes t "injection" || includes t "execution") then
    some "command_injection"
  else if includes t "rce" || includes t "remote code" then
    some "rce"
  else
    none

/-- Specification-side reading of the detector: a fixed ordered rule list,
first matching category wins; the sql rule is simply containment of sql. -/
def orderedAttackRules : List (String × (String → Bool)) :=
  [ ("sql_injection", fun t => includes t "sql"),
    ("xss", fun t => includes t "xss" || includes t "cross-site" || includes t "scripting"),
    ("path_traversal", fun t => includes t "traversal" || includes t "directory" || includes t "../"),
    ("command_injection", fun t => includes t "command" && (includes t "injection" || includes t "execution")),
    ("rce", fun t => includes t "rce" || includes t "remote code") ]

/-- First-match evaluation of the ordered rule table. -/
def detectAttackTypeOrdered (text : String) : Option String :=
  (orderedAttackRules.find? (fun rule => rule.2 (toLowerJS text))).map (fun rule => rule.1)

/-! ## Indicator extraction (processAlerts.js, extractIndicators)

The source extracts indicators with JavaScript regexes via text.match(re)
with the g flag: the leftmost non-overlapping matches, scanning left to
right, each attempt using greedy matching with backtracking.  The scanners
below implement exactly those regexes.  A word character for the boundary
assertion is [A-Za-z0-9_]. -/

/-- JavaScript regex word character, for the boundary assertion. -/
def wordChar (c : Char) : Bool := c.isAlphanum || c == '_'

/-- Character class [a-f0-9] under the i flag. -/
def hexChar (c : Char) : Bool :=
  c.isDigit || ('a' ≤ c && c ≤ 'f') || ('A' ≤ c && c ≤ 'F')

/-- Character class [a-z0-9-] under the i flag (domain label body). -/
def domChar (c : Char) : Bool := c.isAlphanum || c == '-'

/-- True when the optional character is absent or not a word character:
the boundary assertion holds there against an adjacent word character. -/
def notWordOpt : Option Char → Bool
  | none => true
  | some c => !wordChar c

/-- First defined value of f over the candidate list (backtracking order). -/
def firstSome (f : Nat → Option Nat) : List Nat → Option Nat
  | [] => none
  | k :: ks =>
    match f k with
    | some r => some r
    | none => firstSome f ks

/-- Match of the hash regexes at the current position: a word boundary
(previous character absent or non-word), exactly n hex characters, and a
word boundary after (next character absent or non-word).  Models
/[a-f0-9]{n}/ wrapped in word-boundary assertions with the i flag. -/
def hashAt (n : Nat) (prev : Option Char) (l : List Char) : Option Nat :=
  if notWordOpt prev && (l.take n).length == n && (l.take n).all hexChar
      && notWordOpt (l.drop n).head? then
    some n
  else
    none

/-- k digit characters at the head of l. -/
def digitsAt (k : Nat) (l : List Char) : Bool :=
  (l.take k).length == k && (l.take k).all Char.isDigit

/-- Groups of the IPv4 regex (?:[0-9]{1,3}\.){3}[0-9]{1,3} with a trailing
word boundary, with greedy backtracking: each {1,3} tries three digits
first, then two, then one.  The argument g counts the remaining
digit-dot groups before the final digit group. -/
def ipGroups : Nat → List Char → Option Nat
  | 0, l =>
    firstSome
      (fun k => if digitsAt k l && notWordOpt (l.drop k).head? then some k else none)
      [3, 2, 1]
  | g + 1, l =>
    firstSome
      (fun k =>
        if digitsAt k l && (l.drop k).head? == some '.' then
          (ipGroups g (l.drop (k + 1))).map (fun m => k + 1 + m)
        else none)
      [3, 2, 1]

/-- Match of the IPv4 regex at the current position, with its leading word
boundary. -/
def ipAt (prev : Option Char) (l : List Char) : Option Nat :=
  if notWordOpt prev then ipGroups 3 l else none

/-- Shape check for one domain label of length n at the head of l:
first character alphanumeric, remaining characters in [a-z0-9-], last
character alphanumeric.  This is [a-z0-9] for n = 1 and
[a-z0-9][a-z0-9-]{n-2}[a-z0-9] with the last character alphanumeric for
larger n, exactly the label alternatives of the domain regex. -/
def labelShape (n : Nat) (l : List Char) : Bool :=
  (l.take n).length == n &&
  (match l.head? with | some c => c.isAlphanum | none => false) &&
  ((l.take n).drop 1).all domChar &&
  (match (l.take n).getLast? with | some c => c.isAlphanum | none => false)

/-- Candidate label lengths in greedy backtracking order: the optional long
alternative [a-z0-9][a-z0-9-]{0,61}[a-z0-9] tries the inner counter from
61 down to 0 (label lengths 63 down to 2), then the bare single
character alternative (length 1). -/
def labelLens : List Nat :=
  ((List.range 62).reverse.map (fun j => j + 2)) ++ [1]

/-- Candidate lengths of the final domain label [a-z0-9][a-z0-9-]{0,61}[a-z0-9]
in greedy order: 63 down to 2. -/
def finalLabelLens : List Nat :=
  (List.range 62).reverse.map (fun j => j + 2)

/-- One label followed by a literal dot; returns the consumed length
including the dot. -/
def parseLabelDot (l : List Char) : Option Nat :=
  firstSome
    (fun n =>
      if labelShape n l && (l.drop n).head? == some '.' then some (n + 1) else none)
    labelLens

/-- Final label followed by a word boundary; returns the consumed length. -/
def parseFinalLabel (l : List Char) : Option Nat :=
  firstSome
    (fun n =>
      if labelShape n l && notWordOpt (l.drop n).head? then some n else none)
    finalLabelLens

/-- The domain regex body (?:label\.)+final with greedy backtracking over
the repetition count: after each parsed label-dot the scanner first tries
to parse more label-dots, and only on failure closes with the final
label.  Fuel bounds the recursion by the text length. -/
def domainSeq : Nat → List Char → Option Nat
  | 0, _ => none
  | fuel + 1, l =>
    match parseLabelDot l with
    | none => none
    | some n =>
      match domainSeq fuel (l.drop n) with
      | some m => some (n + m)
      | none => (parseFinalLabel (l.drop n)).map (fun m => n + m)

/-- Match of the domain regex at the current position, with its leading
word boundary. -/
def domainAt (prev : Option Char) (l : List Char) : Option Nat :=
  if notWordOpt prev then domainSeq l.length l else none

/-- Leftmost non-overlapping scan of text.match(re) with the g flag: at
each position try the regex; on a match of length n emit it and resume
after it, otherwise advance one character.  Fuel is the text length. -/
def scanMatches (matchAt : Option Char → List Char → Option Nat) :
    Nat → Option Char → List Char → List (List Char)
  | 0, _, _ => []
  | _ + 1, _, [] => []
  | fuel + 1, prev, c :: rest =>
    match matchAt prev (c :: rest) with
    | some (n + 1) =>
      ((c :: rest).take (n + 1)) ::
        scanMatches matchAt fuel ((c :: rest).take (n + 1)).getLast? ((c :: rest).drop (n + 1))
    | _ => scanMatches matchAt fuel (some c) rest

/-- All matches of a regex in a string, in order. -/
def jsMatchAll (matchAt : Option Char → List Char → Option Nat) (s : String) : List String :=
  (scanMatches matchAt s.data.length none s.data).map String.mk

/-- Result record of extractIndicators (the unused patterns field of the
source object is omitted: nothing ever writes or reads it). -/
structure Indicators where
  hashes : List String
  ips : List String
  domains : List String
deriving DecidableEq

/-- extractIndicators from processAlerts.js: up to five matches of each of
the MD5, SHA1 and SHA256 regexes pooled into hashes, up to five IPv4
matches, and up to five domain matches after dropping those ending in
.com or .org or containing example. -/
def extractIndicators (text : String) : Indicators :=
  let md5 := jsMatchAll (hashAt 32) text
  let sha1 := jsMatchAll (hashAt 40) text
  let sha256 := jsMatchAll (hashAt 64) text
  let ips := jsMatchAll ipAt text
  let domains := jsMatchAll domainAt text
  { hashes := md5.take 5 ++ sha1.take 5 ++ sha256.take 5
    ips := ips.take 5
    domains :=
      (domains.filter (fun d =>
        !(endsWithJS d ".com") && !(endsWithJS d ".org") && !(includes d "example"))).take 5 }

/-! ## Data model (server/db.js)

Audit columns (created_at, updated_at) and the opaque raw_data blob are
omitted: no claim mentions them and nothing in the modelled logic reads
them.  Row identifiers (TEXT UUIDs in the schema) are modelled as Nat,
with fresh identifiers drawn from an explicit counter; published_date is
modelled as Nat (ISO-8601 strings compare lexicographically in date
order, and the code only compares them). -/

/-- One row of the alerts table. -/
structure AlertRec where
  id : Nat
  source_id : Nat
  external_id : String
  title : String
  description : String
  severity : String
  published_date : Nat
  updated_date : String
  url : String
  is_processed : Bool
deriving DecidableEq

/-- One row of the yara_rules table (is_locked is used by the endpoints in
server/index.js; tags, a JSON-encoded array in the TEXT column, is
modelled as the list itself). -/
structure YaraRuleRow where
  id : Nat
  alert_id : Nat
  rule_name : String
  rule_content : String
  rdescription : String
  rtags : List String
  is_locked : Bool
  generated_at : String
deriving DecidableEq

/-- One row of the mitre_attack_techniques table. -/
structure TechniqueRow where
  id : Nat
  technique_id : String
  technique_name : String
  tactic : String
  tdescription : String
  turl : String
deriving DecidableEq

/-- One row of the alert_mitre_mappings table; technique_row_id is the
foreign key to the id column (not the T-number) of the technique row. -/
structure MappingRow where
  id : Nat
  alert_id : Nat
  technique_row_id : Nat
  confidence_score : ℚ
deriving DecidableEq

/-- The canonical store: the four tables the modelled services touch. -/
structure Db where
  alerts : List AlertRec
  yara_rules : List YaraRuleRow
  mappings : List MappingRow
  techniques : List TechniqueRow
deriving DecidableEq

/-! ## Ingestion (fetchAlerts.js) -/

/-- A normalized alert candidate produced by a source fetcher. -/
structure Candidate where
  external_id : String
  title : String
  description : String
  severity : String
  published_date : Nat
  updated_date : String
  url : String
deriving DecidableEq

/-- Membership test for the UNIQUE(source_id, external_id) key. -/
def keyMatch (sid : Nat) (eid : String) (r : AlertRec) : Bool :=
  r.source_id == sid && r.external_id == eid

/-- The upsert statement of fetchAlerts.js: INSERT with is_processed = 0,
ON CONFLICT(source_id, external_id) DO UPDATE SET title, description,
severity, updated_date and is_processed = 0.  The conflicting rows keep
their id, published_date and url; a fresh row takes newId. -/
def upsertAlert (sid newId : Nat) (c : Candidate) (tbl : List AlertRec) : List AlertRec :=
  if tbl.any (keyMatch sid c.external_id) then
    tbl.map (fun r =>
      if keyMatch sid c.external_id r then
        { r with
          title := c.title
          description := c.description
          severity := c.severity
          updated_date := c.updated_date
          is_processed := false }
      else r)
  else
    tbl ++ [{ id := newId, source_id := sid, external_id := c.external_id,
              title := c.title, description := c.description, severity := c.severity,
              published_date := c.published_date, updated_date := c.updated_date,
              url := c.url, is_processed := false }]

/-- Allowed values of the severity CHECK constraint in db.js. -/
def severityAllowed (s : String) : Bool :=
  s == "critical" || s == "high" || s == "medium" || s == "low" || s == "info"

/-- One per-row insert of the ingestion batch.  Key conflicts are resolved
inside the statement by the ON CONFLICT clause and never raise; a
non-conflict error is modelled by its concrete instance in this schema, a
violation of the severity CHECK constraint. -/
def insertAlertRow (sid newId : Nat) (c : Candidate) (tbl : List AlertRec) :
    Except String (List AlertRec) :=
  if severityAllowed c.severity then .ok (upsertAlert sid newId c tbl)
  else .error "CHECK constraint failed: severity"

/-- The per-source upsert batch of fetchAlerts.js.  The source wraps the
loop in BEGIN TRANSACTION and COMMIT, but each row is also wrapped in its
own try/catch that only logs: an error raised by one insert is swallowed
there, the loop continues and COMMIT runs.  The ROLLBACK branch fires
only when transaction control itself fails, which the model takes as
infallible, so the fold below is the committed result. -/
def runSourceBatch (sid baseId : Nat) (cands : List Candidate) (tbl : List AlertRec) :
    List AlertRec :=
  (cands.foldl
    (fun acc c =>
      match insertAlertRow sid acc.2 c acc.1 with
      | .ok t => (t, acc.2 + 1)
      | .error _ => (acc.1, acc.2 + 1))
    (tbl, baseId)).1

/-! ## MITRE mapping (processAlerts.js, mapToMitre) -/

/-- One entry of the keyword table in mapToMitre. -/
structure MitrePattern where
  keywords : List String
  technique_id : String
  technique_name : String
  tactic : String
  confidence : ℚ
deriving DecidableEq

/-- The keyword table of mapToMitre, verbatim. -/
def mitrePatterns : List MitrePattern :=
  [ ⟨["remote code execution", "rce", "code execution", "arbitrary code", "execute arbitrary"],
      "T1203", "Exploitation for Client Execution", "Execution", 0.85⟩,
    ⟨["sql injection", "sqli", "sql"],
      "T1190", "Exploit Public-Facing Application", "Initial Access", 0.90⟩,
    ⟨["privilege escalation", "elevate privileges", "gain privileges", "root access", "admin access"],
      "T1068", "Exploitation for Privilege Escalation", "Privilege Escalation", 0.85⟩,
    ⟨["credential", "password", "authentication", "login", "bypass authentication"],
      "T1078", "Valid Accounts", "Defense Evasion", 0.70⟩,
    ⟨["phishing", "spear phishing", "social engineering"],
      "T1566", "Phishing", "Initial Access", 0.90⟩,
    ⟨["malware", "trojan", "backdoor", "virus", "ransomware", "spyware"],
      "T1204", "User Execution", "Execution", 0.75⟩,
    ⟨["vulnerability", "buffer overflow", "overflow", "memory corruption", "out of bounds"],
      "T1203", "Exploitation for Client Execution", "Execution", 0.80⟩,
    ⟨["denial of service", "dos", "ddos", "crash"],
      "T1498", "Network Denial of Service", "Impact", 0.85⟩,
    ⟨["command injection", "command execution", "shell"],
      "T1059", "Command and Scripting Interpreter", "Execution", 0.85⟩,
    ⟨["data exfiltration", "data theft", "exfiltrate", "leak", "disclosure", "sensitive information"],
      "T1041", "Exfiltration Over C2 Channel", "Exfiltration", 0.80⟩,
    ⟨["cross-site scripting", "xss"],
      "T1190", "Exploit Public-Facing Application", "Initial Access", 0.85⟩,
    ⟨["directory traversal", "path traversal"],
      "T1190", "Exploit Public-Facing Application", "Initial Access", 0.85⟩,
    ⟨["injection", "inject"],
      "T1059", "Command and Scripting Interpreter", "Execution", 0.70⟩ ]

/-- One mapping produced by mapToMitre. -/
structure MitreMapping where
  technique_id : String
  technique_name : String
  tactic : String
  mdescription : String
  confidence_score : ℚ
deriving DecidableEq

/-- The fallback mapping emitted when no keyword entry matches. -/
def defaultMitreMapping : MitreMapping :=
  ⟨"T1190", "Exploit Public-Facing Application", "Initial Access",
    "Default mapping for vulnerability alerts", 0.50⟩

/-- The text mapToMitre matches against:
(alert.description || alert.title || empty).toLowerCase().  The empty
string is the only falsy String value in this model, standing for both
the empty and the absent column. -/
def mitreMatchText (a : AlertRec) : String :=
  toLowerJS (if a.description == "" then (if a.title == "" then "" else a.title) else a.description)

/-- mapToMitre from processAlerts.js: every table entry with at least one
keyword hit contributes one mapping, in table order; if none match, the
single default mapping is returned. -/
def mapToMitre (a : AlertRec) : List MitreMapping :=
  let descr := mitreMatchText a
  let mappings :=
    (mitrePatterns.filter (fun p => p.keywords.any (fun k => includes descr k))).map
      (fun p => ⟨p.technique_id, p.technique_name, p.tactic,
                 "Mapped based on alert content analysis", p.confidence⟩)
  if mappings.isEmpty then [defaultMitreMapping] else mappings

/-! ## YARA rule generation (processAlerts.js, generateYaraRule)

The source builds one template string whose only impure ingredient is the
interpolation of new Date().toISOString() into the generated metadata
line; that timestamp is the explicit parameter now, and the template is
split at exactly that interpolation point into a prefix and a suffix that
depend only on the alert. -/

/-- The ATTACK_SIGNATURES object of processAlerts.js, verbatim. -/
def attackSignatures (cat : String) : List String :=
  if cat == "sql_injection" then
    [ "$sqli1 = \"UNION SELECT\" nocase",
      "$sqli2 = \"OR 1=1\" nocase",
      "$sqli3 = \"information_schema\" nocase",
      "$sqli4 = \"xp_cmdshell\" nocase",
      "$sqli5 = \"--\" wide ascii",
      "$sqli6 = \"; DROP TABLE\" nocase" ]
  else if cat == "xss" then
    [ "$xss1 = \"<script>\" nocase",
      "$xss2 = \"javascript:\" nocase",
      "$xss3 = \"onerror=\" nocase",
      "$xss4 = \"onload=\" nocase",
      "$xss5 = \"document.cookie\" nocase" ]
  else if cat == "path_traversal" then
    [ "$pt1 = \"../\" ascii",
      "$pt2 = \"..%2f\" nocase",
      "$pt3 = \"/etc/passwd\" nocase",
      "$pt4 = \"C:\\\\Windows\\\\System32\" nocase" ]
  else if cat == "command_injection" then
    [ "$cmd1 = \"/bin/sh\" nocase",
      "$cmd2 = \"/bin/bash\" nocase",
      "$cmd3 = \"cmd.exe\" nocase",
      "$cmd4 = \"powershell\" nocase",
      "$cmd5 = \"&&\" ascii",
      "$cmd6 = \"|\" ascii" ]
  else if cat == "rce" then
    [ "$rce1 = \"eval(\" nocase",
      "$rce2 = \"base64_decode\" nocase",
      "$rce3 = \"shell_exec\" nocase",
      "$rce4 = \"system(\" nocase" ]
  else []

/-- Rule name: alert_ then the sanitized title then _ then the sanitized
external id. -/
def yaraRuleName (a : AlertRec) : String :=
  "alert_" ++ sanitizeIdent a.title ++ "_" ++ sanitizeIdent a.external_id

/-- The description generateYaraRule works with:
alert.description || alert.title. -/
def yaraDescriptionOf (a : AlertRec) : String :=
  if a.description == "" then a.title else a.description

/-- The attack category generateYaraRule detects, from description and
title joined by one space. -/
def yaraAttackType (a : AlertRec) : Option String :=
  detectAttackType (yaraDescriptionOf a ++ " " ++ a.title)

/-- Tags: high_priority for critical or high severity, then the raw
severity, then the detected category if any. -/
def yaraTags (a : AlertRec) : List String :=
  (if a.severity == "critical" || a.severity == "high" then ["high_priority"] else []) ++
    [a.severity] ++
    (match yaraAttackType a with | some c => [c] | none => [])

/-- String definitions and condition clauses of the rule body, in source
order: hash indicators, then ip indicators, then domain indicators, then
the signature set of the detected category, and the generic external-id
fallback when nothing else produced a definition. -/
def yaraStringsAndConds (a : AlertRec) : List String × List String :=
  let ind := extractIndicators (yaraDescriptionOf a)
  let hashDefs := ind.hashes.enum.map
    (fun p => "        $hash" ++ toString p.1 ++ " = \"" ++ p.2 ++ "\"")
  let ipDefs := ind.ips.enum.map
    (fun p => "        $ip" ++ toString p.1 ++ " = \"" ++ p.2 ++ "\"")
  let domainDefs := ind.domains.enum.map
    (fun p => "        $domain" ++ toString p.1 ++ " = \"" ++ p.2 ++ "\"")
  let indicatorConds :=
    (if ind.hashes.isEmpty then [] else ["any of ($hash*)"]) ++
    (if ind.ips.isEmpty then [] else ["any of ($ip*)"]) ++
    (if ind.domains.isEmpty then [] else ["any of ($domain*)"])
  let sigPair :=
    match yaraAttackType a with
    | some cat =>
      let sig := attackSignatures cat
      if sig.isEmpty then ([], [])
      else
        (sig.map (fun s => "        " ++ s),
         ["any of (" ++ stripTrailingDigitsStar (firstTokenJS (sig.headD "")) ++ ")"])
    | none => ([], [])
  let defs := hashDefs ++ ipDefs ++ domainDefs ++ sigPair.1
  let conds := indicatorConds ++ sigPair.2
  if defs.isEmpty then
    (["        $generic = \"" ++ a.external_id ++ "\" nocase"], ["$generic"])
  else (defs, conds)

/-- Metadata description: first 200 characters, double quotes escaped,
newlines replaced by spaces. -/
def cleanDescOf (a : AlertRec) : String :=
  replaceAllJS (replaceAllJS (takeJS (yaraDescriptionOf a) 200) "\"" "\\\"") "\n" " "

/-- The rule template up to (and including) the opening quote of the
generated metadata value. -/
def yaraContentPre (a : AlertRec) : String :=
  "rule " ++ yaraRuleName a ++
  " \x7b\n    meta:\n        description = \"" ++ cleanDescOf a ++
  "\"\n        severity = \"" ++ a.severity ++
  "\"\n        source = \"" ++ a.url ++
  "\"\n        alert_id = \"" ++ a.external_id ++
  "\"\n        generated = \""

/-- The rule template after the generated metadata value. -/
def yaraContentPost (a : AlertRec) : String :=
  "\"\n        attack_type = \"" ++ ((yaraAttackType a).getD "unknown") ++
  "\"\n    strings:\n" ++ String.intercalate "\n" (yaraStringsAndConds a).1 ++
  "\n    condition:\n        " ++ String.intercalate " or " (yaraStringsAndConds a).2 ++
  "\n\x7d"

/-- Result of generateYaraRule. -/
structure YaraGen where
  name : String
  content : String
  gdescription : String
  tags : List String
deriving DecidableEq

/-- generateYaraRule from processAlerts.js; now is the value of
new Date().toISOString() at the call. -/
def generateYaraRule (a : AlertRec) (now : String) : YaraGen :=
  { name := yaraRuleName a
    content := yaraContentPre a ++ now ++ yaraContentPost a
    gdescription := takeJS (yaraDescriptionOf a) 200
    tags := yaraTags a }

/-! ## NIST severity parsing (fetchAlerts.js, fetchNISTAlerts)

The per-entry severity starts at info; when a CVSS metrics object is
present (cvssMetricV31 first, else cvssMetricV2), the score is
(cvssData?.baseScore) || 0 and the threshold chain runs.  The input is
collapsed to the two resolutions the code distinguishes: whether a
metrics object was found, and whether it carried a base score.  The REAL
score is modelled as a rational. -/

/-- Severity assignment of fetchNISTAlerts: none means no metrics object;
some none means a metrics object without a base score (the || 0 default
applies); some (some q) means base score q. -/
def nistSeverityOfMetrics : Option (Option ℚ) → String
  | none => "info"
  | some baseScore =>
    let score := baseScore.getD 0
    if 9 ≤ score then "critical"
    else if 7 ≤ score then "high"
    else if 4 ≤ score then "medium"
    else "low"

/-- Specification-side severity rule: thresholds on a present score,
info when no score is present. -/
def specNistSeverity : Option ℚ → String
  | none => "info"
  | some q =>
    if 9 ≤ q then "critical"
    else if 7 ≤ q then "high"
    else if 4 ≤ q then "medium"
    else "low"

/-! ## Alert processing (processAlerts.js, processAlerts) -/

/-- SQL ORDER BY published_date DESC, as a total preorder for the sort. -/
def byPublishedDesc (a b : AlertRec) : Prop :=
  b.published_date ≤ a.published_date

instance : DecidableRel byPublishedDesc :=
  fun a b => inferInstanceAs (Decidable (b.published_date ≤ a.published_date))

instance : IsTotal AlertRec byPublishedDesc :=
  ⟨fun a b => Nat.le_total b.published_date a.published_date⟩

instance : IsTrans AlertRec byPublishedDesc :=
  ⟨fun _ _ _ h1 h2 => Nat.le_trans h2 h1⟩

/-- Processing of one unprocessed alert, threading the store and the fresh
identifier counter: delete the prior rule and mapping rows of the alert,
insert the regenerated rule (the UNIQUE(rule_name) conflict is caught and
logged in the source, hence insert-if-absent), walk the MITRE mappings
creating technique rows lazily and inserting mapping rows unless the
UNIQUE(alert_id, technique_id) key already exists (that conflict is also
caught and swallowed), and finally mark the alert processed. -/
def processOne (now : String) (st : Db × Nat) (a : AlertRec) : Db × Nat :=
  let db := st.1
  let fresh := st.2
  let rules1 := db.yara_rules.filter (fun r => !(r.alert_id == a.id))
  let maps1 := db.mappings.filter (fun m => !(m.alert_id == a.id))
  let yr := generateYaraRule a now
  let rules2 :=
    if rules1.any (fun r => r.rule_name == yr.name) then rules1
    else rules1 ++ [{ id := fresh, alert_id := a.id, rule_name := yr.name,
                      rule_content := yr.content, rdescription := yr.gdescription,
                      rtags := yr.tags, is_locked := false, generated_at := now }]
  let step := (mapToMitre a).foldl
    (fun (acc : List TechniqueRow × List MappingRow × Nat) m =>
      let techs := acc.1
      let maps := acc.2.1
      let fr := acc.2.2
      match techs.find? (fun t => t.technique_id == m.technique_id) with
      | some t =>
        if maps.any (fun mr => mr.alert_id == a.id && mr.technique_row_id == t.id) then
          (techs, maps, fr + 1)
        else
          (techs, maps ++ [{ id := fr, alert_id := a.id, technique_row_id := t.id,
                             confidence_score := m.confidence_score }], fr + 1)
      | none =>
        let tRow : TechniqueRow :=
          { id := fr, technique_id := m.technique_id, technique_name := m.technique_name,
            tactic := m.tactic, tdescription := m.mdescription,
            turl := "https://attack.mitre.org/techniques/" ++ m.technique_id ++ "/" }
        if maps.any (fun mr => mr.alert_id == a.id && mr.technique_row_id == tRow.id) then
          (techs ++ [tRow], maps, fr + 2)
        else
          (techs ++ [tRow],
           maps ++ [{ id := fr + 1, alert_id := a.id, technique_row_id := tRow.id,
                      confidence_score := m.confidence_score }], fr + 2))
    (db.techniques, maps1, fresh + 1)
  let alerts2 := db.alerts.map
    (fun x => if x.id == a.id then { x with is_processed := true } else x)
  ({ alerts := alerts2, yara_rules := rules2, mappings := step.2.1, techniques := step.1 },
   step.2.2)

/-- processAlerts from processAlerts.js: select the unprocessed alerts
once (ORDER BY published_date DESC LIMIT 2000) and process each in turn
against the evolving store. -/
def processAlerts (now : String) (fresh : Nat) (db : Db) : Db :=
  let unprocessed :=
    (List.insertionSort byPublishedDesc (db.alerts.filter (fun a => !a.is_processed))).take 2000
  (unprocessed.foldl (processOne now) (db, fresh)).1

/-! ## Deduplication (server/services/deduplication.js) -/

/-- Distinct values in first-occurrence order, with an accumulator of the
values already seen (models SELECT external_id GROUP BY external_id). -/
def distinctAux (seen : List String) : List String → List String
  | [] => []
  | x :: xs => if seen.contains x then distinctAux seen xs else x :: distinctAux (x :: seen) xs

/-- SQL ORDER BY published_date DESC, id DESC as a total preorder: a row
sorts before another when its published_date is larger, or equal with a
larger-or-equal id. -/
def dedupRel (a b : AlertRec) : Prop :=
  b.published_date < a.published_date ∨
    (b.published_date = a.published_date ∧ b.id ≤ a.id)

instance : DecidableRel dedupRel :=
  fun a b =>
    inferInstanceAs (Decidable (b.published_date < a.published_date ∨
      (b.published_date = a.published_date ∧ b.id ≤ a.id)))

instance : IsTotal AlertRec dedupRel := by
  refine ⟨fun a b => ?_⟩
  rcases Nat.lt_trichotomy a.published_date b.published_date with h | h | h
  · exact Or.inr (Or.inl h)
  · rcases Nat.le_total b.id a.id with h2 | h2
    · exact Or.inl (Or.inr ⟨h.symm, h2⟩)
    · exact Or.inr (Or.inr ⟨h, h2⟩)
  · exact Or.inl (Or.inl h)

instance : IsTrans AlertRec dedupRel := by
  refine ⟨fun a b c h1 h2 => ?_⟩
  rcases h1 with h1 | ⟨h1e, h1i⟩ <;> rcases h2 with h2 | ⟨h2e, h2i⟩
  · exact Or.inl (Nat.lt_trans h2 h1)
  · exact Or.inl (h2e ▸ h1)
  · exact Or.inl (h1e ▸ h2)
  · exact Or.inr ⟨h2e.trans h1e, Nat.le_trans h2i h1i⟩

/-- The per-group entry ordering of the duplicate scan. -/
def sortEntriesDesc (l : List AlertRec) : List AlertRec :=
  List.insertionSort dedupRel l

/-- The duplicate scan of removeDuplicates: SELECT external_id GROUP BY
external_id HAVING count > 1. -/
def dupKeys (db : Db) : List String :=
  (distinctAux [] (db.alerts.map (fun a => a.external_id))).filter
    (fun e => 1 < (db.alerts.filter (fun a => a.external_id == e)).length)

/-- The ids collected for deletion: for each duplicated external_id, all
rows of the ORDER BY published_date DESC, id DESC listing except the
first. -/
def dedupIdsToDelete (db : Db) : List Nat :=
  (dupKeys db).flatMap
    (fun e => ((sortEntriesDesc (db.alerts.filter (fun a => a.external_id == e))).drop 1).map
      (fun a => a.id))

/-- The alerts surviving the batch DELETE. -/
def dedupSurvivors (db : Db) : List AlertRec :=
  db.alerts.filter (fun a => !((dedupIdsToDelete db).contains a.id))

/-- removeDuplicates from deduplication.js: for every external_id held by
more than one alert row, keep the first row of the ORDER BY
published_date DESC, id DESC listing and collect the ids of the rest;
delete the collected rows in one statement; then delete every yara_rules
and alert_mitre_mappings row whose alert_id is not among the surviving
alert ids.  Foreign-key cascades are off in this SQLite setup (only
journal_mode is set), so the orphan sweeps do all referential cleanup. -/
def removeDuplicates (db : Db) : Db :=
  let alerts1 := dedupSurvivors db
  let keptIds := alerts1.map (fun a => a.id)
  { db with
    alerts := alerts1
    yara_rules := db.yara_rules.filter (fun r => keptIds.contains r.alert_id)
    mappings := db.mappings.filter (fun m => keptIds.contains m.alert_id) }

/-! ## Job lock and endpoints (server/index.js) -/

/-- The three pipeline-wide jobs gated by the lock. -/
inductive Job
  | sync
  | deduplicate
  | reprocess
deriving DecidableEq

/-- The job name used in lock state and messages. -/
def jobName : Job → String
  | .sync => "sync"
  | .deduplicate => "deduplicate"
  | .reprocess => "reprocess"

/-- The module-level jobState object. -/
structure JobState where
  isRunning : Bool
  currentJob : Option String
  startTime : Option String
deriving DecidableEq

/-- The initial lock state. -/
def idleJobState : JobState := ⟨false, none, none⟩

/-- The message of the error thrown by tryAcquireLock on contention. -/
def lockErrorMessage (s : JobState) : String :=
  "Job \x27" ++ s.currentJob.getD "null" ++ "\x27 is currently running (started at " ++
    s.startTime.getD "null" ++ ")"

/-- tryAcquireLock from server/index.js: throw a descriptive error when a
job is running, otherwise record the new owner and start time. -/
def tryAcquireLock (name now : String) (s : JobState) : Except String JobState :=
  if s.isRunning then .error (lockErrorMessage s)
  else .ok { isRunning := true, currentJob := some name, startTime := some now }

/-- The finally block of each job endpoint:
if (jobState.currentJob === name) releaseLock(). -/
def finallyRelease (name : String) (s : JobState) : JobState :=
  if s.currentJob == some name then idleJobState else s

/-- A minimal HTTP response: status code and body text. -/
structure HttpResponse where
  status : Nat
  body : String
deriving DecidableEq

/-- Error classification of the job endpoints: messages containing
currently running become 409 responses, everything else 500. -/
def classifyJobError (msg : String) : HttpResponse :=
  if includes msg "currently running" then ⟨409, msg⟩ else ⟨500, msg⟩

/-- Lock state after a job endpoint acquired the lock on the idle state. -/
def acquiredState (j : Job) (t : String) : JobState :=
  ⟨true, some (jobName j), some t⟩

/-- The whole run of a second job request arriving while the first holds
the lock: its tryAcquireLock call, the catch clause classifying the
thrown message, and its finally clause.  All three job endpoints call
tryAcquireLock before their first store statement, so the store is
returned untouched on the error path. -/
def secondRequestOutcome (j1 j2 : Job) (t0 t1 : String) (db : Db) :
    HttpResponse × JobState × Db :=
  match tryAcquireLock (jobName j2) t1 (acquiredState j1 t0) with
  | .error msg => (classifyJobError msg, finallyRelease (jobName j2) (acquiredState j1 t0), db)
  | .ok s2 => (⟨200, "started"⟩, s2, db)

/-- Completion of the first request after its body ran: on success and on
failure alike the finally clause runs before the response is sent. -/
def firstRequestFinish (j1 : Job) (bodyFailed : Bool) (s : JobState) :
    HttpResponse × JobState :=
  if bodyFailed then (⟨500, "job failed"⟩, finallyRelease (jobName j1) s)
  else (⟨200, "success"⟩, finallyRelease (jobName j1) s)

/-- POST /api/alerts/:id/reprocess from server/index.js: the handler first
runs UPDATE alerts SET is_processed = 0 WHERE id = ?, then checks the
job lock and returns 409 when a job is running (without undoing the
update), and only otherwise runs the batch processor. -/
def reprocessSingleAlert (alertId : Nat) (now : String) (fresh : Nat)
    (st : JobState) (db : Db) : HttpResponse × Db :=
  let alerts1 := db.alerts.map
    (fun a => if a.id == alertId then { a with is_processed := false } else a)
  let db1 : Db := { db with alerts := alerts1 }
  if st.isRunning then
    (⟨409, "Job \x27" ++ st.currentJob.getD "null" ++ "\x27 is running"⟩, db1)
  else
    (⟨200, "success"⟩, processAlerts now fresh db1)

/-! ## Concrete test fixtures used by witnesses and counterexamples -/

/-- First fetch of one advisory. -/
def cand1W : Candidate :=
  { external_id := "CVE-2024-0001", title := "first title", description := "first body",
    severity := "high", published_date := 100, updated_date := "2024-01-01", url := "u1" }

/-- Second fetch of the same advisory with differing content. -/
def cand2W : Candidate :=
  { external_id := "CVE-2024-0001", title := "second title", description := "second body",
    severity := "critical", published_date := 100, updated_date := "2024-02-01", url := "u2" }

/-- A well-formed candidate for the ingestion batch. -/
def cGoodCand : Candidate :=
  { external_id := "GOOD-1", title := "good", description := "", severity := "high",
    published_date := 1, updated_date := "d", url := "" }

/-- A candidate whose insert violates the severity CHECK constraint: a
non-conflict error. -/
def cBadCand : Candidate :=
  { external_id := "BAD-1", title := "bad", description := "", severity := "bogus",
    published_date := 2, updated_date := "d", url := "" }

/-- A concrete alert for the rule-generation counterexample. -/
def c3Alert : AlertRec :=
  { id := 1, source_id := 1, external_id := "CVE-2024-9", title := "Test alert",
    description := "benign text", severity := "low", published_date := 10,
    updated_date := "u", url := "", is_processed := false }

/-- An unprocessed alert whose rule is locked. -/
def c4Alert : AlertRec :=
  { id := 1, source_id := 1, external_id := "CVE-L", title := "t", description := "d",
    severity := "low", published_date := 10, updated_date := "u", url := "",
    is_processed := false }

/-- A store holding c4Alert together with its locked, operator-edited
rule. -/
def c4Db : Db :=
  { alerts := [c4Alert]
    yara_rules := [{ id := 7, alert_id := 1, rule_name := "locked_rule",
                     rule_content := "OPERATOR EDITED CONTENT", rdescription := "",
                     rtags := [], is_locked := true, generated_at := "g" }]
    mappings := []
    techniques := [] }

/-- A store with three alerts sharing one external_id (ties on
published_date between ids 2 and 3) plus dependent rows. -/
def c5Db : Db :=
  { alerts :=
      [ { id := 1, source_id := 1, external_id := "CVE-7", title := "a", description := "",
          severity := "low", published_date := 10, updated_date := "", url := "",
          is_processed := true },
        { id := 2, source_id := 1, external_id := "CVE-7", title := "b", description := "",
          severity := "low", published_date := 30, updated_date := "", url := "",
          is_processed := true },
        { id := 3, source_id := 2, external_id := "CVE-7", title := "c", description := "",
          severity := "low", published_date := 30, updated_date := "", url := "",
          is_processed := true },
        { id := 4, source_id := 1, external_id := "OTHER", title := "d", description := "",
          severity := "low", published_date := 1, updated_date := "", url := "",
          is_processed := true } ]
    yara_rules := [{ id := 11, alert_id := 1, rule_name := "r1", rule_content := "",
                     rdescription := "", rtags := [], is_locked := false, generated_at := "" },
                   { id := 12, alert_id := 3, rule_name := "r3", rule_content := "",
                     rdescription := "", rtags := [], is_locked := false, generated_at := "" }]
    mappings := [{ id := 21, alert_id := 2, technique_row_id := 31, confidence_score := 0.5 }]
    techniques := [{ id := 31, technique_id := "T1190", technique_name := "n", tactic := "ta",
                     tdescription := "", turl := "" }] }

/-- An alert whose title holds a mapper keyword while its description is
non-empty and keyword-free. -/
def c6Alert : AlertRec :=
  { id := 1, source_id := 1, external_id := "E", title := "Phishing campaign",
    description := "benign text", severity := "low", published_date := 0,
    updated_date := "", url := "", is_processed := false }

/-- A store with one already-processed alert, for the single-alert
reprocess scenario. -/
def c10Db : Db :=
  { alerts := [{ id := 5, source_id := 1, external_id := "X", title := "t",
                 description := "", severity := "low", published_date := 0,
                 updated_date := "", url := "", is_processed := true }]
    yara_rules := [], mappings := [], techniques := [] }

/-! # Theorems -/

/-! ## String lemmas -/

theorem string_data_inj {s t : String} (h : s.data = t.data) : s = t := by
  cases s; cases t; simp_all

theorem prefixOfB_append (n a b : List Char) (h : prefixOfB n a = true) :
    prefixOfB n (a ++ b) = true := by
  induction n generalizing a with
  | nil => simp [prefixOfB]
  | cons c cs ih =>
    cases a with
    | nil => simp [prefixOfB] at h
    | cons x xs =>
      simp only [prefixOfB, Bool.and_eq_true] at h ⊢
      exact ⟨h.1, ih xs h.2⟩

theorem infixOfB_append_left (n a b : List Char) (h : infixOfB n a = true) :
    infixOfB n (a ++ b) = true := by
  induction a with
  | nil =>
    cases n with
    | nil =>
      cases b with
      | nil => simpa using h
      | cons y ys => simp [infixOfB, prefixOfB]
    | cons c cs => simp [infixOfB, prefixOfB] at h
  | cons x xs ih =>
    simp only [infixOfB, Bool.or_eq_true, List.cons_append] at h ⊢
    rcases h with h | h
    · exact Or.inl (prefixOfB_append _ _ _ h)
    · exact Or.inr (ih h)

theorem infixOfB_append_right (n a b : List Char) (h : infixOfB n b = true) :
    infixOfB n (a ++ b) = true := by
  induction a with
  | nil => simpa using h
  | cons x xs ih =>
    simp only [List.cons_append, infixOfB, Bool.or_eq_true]
    exact Or.inr ih

theorem prefixOfB_refl (l : List Char) : prefixOfB l l = true := by
  induction l with
  | nil => rfl
  | cons c cs ih => simp [prefixOfB, ih]

theorem infixOfB_refl (l : List Char) : infixOfB l l = true := by
  cases l with
  | nil => rfl
  | cons c cs => simp [infixOfB, prefixOfB_refl]

theorem includes_append_left (a b m : String) (h : includes a m = true) :
    includes (a ++ b) m = true := by
  simpa [includes, String.data_append] using infixOfB_append_left m.data a.data b.data (by simpa [includes] using h)

theorem includes_append_right (a b m : String) (h : includes b m = true) :
    includes (a ++ b) m = true := by
  simpa [includes, String.data_append] using infixOfB_append_right m.data a.data b.data (by simpa [includes] using h)

theorem includes_refl (a : String) : includes a a = true := by
  simpa [includes] using infixOfB_refl a.data

theorem string_append_middle_cancel {A B t t' : String}
    (h : A ++ t ++ B = A ++ t' ++ B) : t = t' := by
  have hd := congrArg String.data h
  simp only [String.data_append] at hd
  exact string_data_inj (List.append_cancel_left (List.append_cancel_right hd))

/-! ## C7: attack-category detection -/

/-- C7: detectAttackType returns sql_injection exactly when the lowercased
text contains sql (so text containing database or injection but not sql
never yields it); it returns at most one category, being Option-valued;
and it equals first-match evaluation of the fixed ordered rule list
sql_injection, xss, path_traversal, command_injection, rce. -/
theorem detectAttackType_sql_iff_and_ordered (s : String) :
    (detectAttackType s = some "sql_injection" ↔ includes (toLowerJS s) "sql" = true) ∧
    detectAttackType s = detectAttackTypeOrdered s := by
  have hbase : detectAttackType s = detectAttackTypeOrdered s := by
    unfold detectAttackType detectAttackTypeOrdered orderedAttackRules
    cases h1 : includes (toLowerJS s) "sql" <;>
      cases h2 : (includes (toLowerJS s) "xss" || includes (toLowerJS s) "cross-site" ||
        includes (toLowerJS s) "scripting") <;>
      cases h3 : (includes (toLowerJS s) "traversal" || includes (toLowerJS s) "directory" ||
        includes (toLowerJS s) "../") <;>
      cases h4 : (includes (toLowerJS s) "command" && (includes (toLowerJS s) "injection" ||
        includes (toLowerJS s) "execution")) <;>
      cases h5 : (includes (toLowerJS s) "rce" || includes (toLowerJS s) "remote code") <;>
      simp [h1, h2, h3, h4, h5, List.find?]
  refine ⟨?_, hbase⟩
  rw [hbase]
  unfold detectAttackTypeOrdered orderedAttackRules
  cases h1 : includes (toLowerJS s) "sql"
  · simp only [List.find?, h1]
    cases h2 : (includes (toLowerJS s) "xss" || includes (toLowerJS s) "cross-site" ||
        includes (toLowerJS s) "scripting") <;>
      cases h3 : (includes (toLowerJS s) "traversal" || includes (toLowerJS s) "directory" ||
        includes (toLowerJS s) "../") <;>
      cases h4 : (includes (toLowerJS s) "command" && (includes (toLowerJS s) "injection" ||
        includes (toLowerJS s) "execution")) <;>
      cases h5 : (includes (toLowerJS s) "rce" || includes (toLowerJS s) "remote code") <;>
      simp [h2, h3, h4, h5]
  · simp [List.find?, h1]

/-! ## C8: NIST severity thresholds -/

/-- C8 counterexample: when a CVSS metrics object is present but carries
no base score, no score is present, yet the code assigns low where the
claim (the specification-side rule) assigns info. -/
theorem nistSeverity_no_score_cex :
    nistSeverityOfMetrics (some none) = "low" ∧
    specNistSeverity none = "info" ∧
    ("low" : String) ≠ "info" := by
  decide

/-- C8 amended: the thresholds hold for every present base score exactly
as claimed (score at least 9 critical, at least 7 high, at least 4
medium, else low, agreeing with the specification-side rule); info is
assigned exactly when no metrics object resolved, while a metrics object
without a base score defaults the score to 0 and yields low. -/
theorem nistSeverity_amended (q : ℚ) :
    nistSeverityOfMetrics none = "info" ∧
    nistSeverityOfMetrics (some none) = "low" ∧
    nistSeverityOfMetrics (some (some q)) = specNistSeverity (some q) ∧
    (9 ≤ q → nistSeverityOfMetrics (some (some q)) = "critical") ∧
    (7 ≤ q → q < 9 → nistSeverityOfMetrics (some (some q)) = "high") ∧
    (4 ≤ q → q < 7 → nistSeverityOfMetrics (some (some q)) = "medium") ∧
    (q < 4 → nistSeverityOfMetrics (some (some q)) = "low") := by
  refine ⟨rfl, rfl, rfl, ?_, ?_, ?_, ?_⟩ <;>
    · intros
      simp only [nistSeverityOfMetrics, Option.getD_some]
      split_ifs <;> first | rfl | linarith

/-- C8 amended, witnessed at concrete scores: 9.5 is critical, 7.5 high,
5 medium, 1 low. -/
theorem nistSeverity_amended_witness :
    ((9 : ℚ) ≤ 9.5 ∧ nistSeverityOfMetrics (some (some 9.5)) = "critical") ∧
    ((7 : ℚ) ≤ 7.5 ∧ (7.5 : ℚ) < 9 ∧ nistSeverityOfMetrics (some (some 7.5)) = "high") ∧
    ((4 : ℚ) ≤ 5 ∧ (5 : ℚ) < 7 ∧ nistSeverityOfMetrics (some (some 5)) = "medium") ∧
    ((1 : ℚ) < 4 ∧ nistSeverityOfMetrics (some (some 1)) = "low") :=
  ⟨⟨by norm_num, (nistSeverity_amended 9.5).2.2.2.1 (by norm_num)⟩,
   ⟨by norm_num, by norm_num, (nistSeverity_amended 7.5).2.2.2.2.1 (by norm_num) (by norm_num)⟩,
   ⟨by norm_num, by norm_num, (nistSeverity_amended 5).2.2.2.2.2.1 (by norm_num) (by norm_num)⟩,
   ⟨by norm_num, (nistSeverity_amended 1).2.2.2.2.2.2 (by norm_num)⟩⟩

/-! ## C3: rule-generation determinism -/

/-- C3 counterexample: two invocations of the Rule Generator on the same
alert state at different wall-clock instants produce different rule
content, because new Date().toISOString() is interpolated into the
generated metadata line. -/
theorem generateYaraRule_time_cex :
    (generateYaraRule c3Alert "2024-01-01T00:00:00.000Z").content ≠
      (generateYaraRule c3Alert "2024-01-02T00:00:00.000Z").content := by
  decide

/-- C3 amended: the Rule Generator is deterministic in the pair of alert
state and generation timestamp: name, tags and description do not depend
on the timestamp at all, the content is the alert-determined template
prefix, then the timestamp, then the alert-determined template suffix,
and two invocations on the same alert state produce byte-identical
content exactly when their timestamps coincide. -/
theorem generateYaraRule_deterministic_modulo_timestamp (a : AlertRec) (t t' : String) :
    (generateYaraRule a t).name = (generateYaraRule a t').name ∧
    (generateYaraRule a t).tags = (generateYaraRule a t').tags ∧
    (generateYaraRule a t).gdescription = (generateYaraRule a t').gdescription ∧
    (generateYaraRule a t).content = yaraContentPre a ++ t ++ yaraContentPost a ∧
    ((generateYaraRule a t).content = (generateYaraRule a t').content ↔ t = t') := by
  refine ⟨rfl, rfl, rfl, rfl, ⟨fun h => string_append_middle_cancel h, fun h => by rw [h]⟩⟩

/-! ## C9: job-lock contention -/

/-- C9: whenever a second job-trigger request (any of sync, deduplicate,
reprocess) arrives while a first one holds the job lock, the second
request is answered with status 409 whose body names the currently
running job and says currently running (a distinct conflict, not a
generic failure), the store is returned untouched by the second request,
and after the first request finishes (its body succeeding or failing
alike) and runs its finally clause the lock is released. -/
theorem jobLock_conflict (j1 j2 : Job) (t0 t1 : String) (db : Db) (bodyFailed : Bool) :
    (secondRequestOutcome j1 j2 t0 t1 db).1.status = 409 ∧
    includes (secondRequestOutcome j1 j2 t0 t1 db).1.body (jobName j1) = true ∧
    includes (secondRequestOutcome j1 j2 t0 t1 db).1.body "currently running" = true ∧
    (secondRequestOutcome j1 j2 t0 t1 db).2.2 = db ∧
    (firstRequestFinish j1 bodyFailed (secondRequestOutcome j1 j2 t0 t1 db).2.1).2.isRunning
      = false := by
  have hname : includes (lockErrorMessage (acquiredState j1 t0)) (jobName j1) = true :=
    includes_append_left _ ")" _
      (includes_append_left _ t0 _
        (includes_append_left _ "\x27 is currently running (started at " _
          (includes_append_right "Job \x27" (jobName j1) _ (includes_refl _))))
  have hrun : includes (lockErrorMessage (acquiredState j1 t0)) "currently running" = true :=
    includes_append_left _ ")" _
      (includes_append_left _ t0 _
        (includes_append_right ("Job \x27" ++ jobName j1)
          "\x27 is currently running (started at " _ (by decide)))
  refine ⟨?_, ?_, ?_, rfl, ?_⟩
  · show (classifyJobError (lockErrorMessage (acquiredState j1 t0))).status = 409
    simp [classifyJobError, hrun]
  · show includes (classifyJobError (lockErrorMessage (acquiredState j1 t0))).body
      (jobName j1) = true
    simpa [classifyJobError, hrun] using hname
  · show includes (classifyJobError (lockErrorMessage (acquiredState j1 t0))).body
      "currently running" = true
    simp [classifyJobError, hrun]
  · show (firstRequestFinish j1 bodyFailed
        (finallyRelease (jobName j2) (acquiredState j1 t0))).2.isRunning = false
    cases bodyFailed <;> cases j1 <;> cases j2 <;> rfl

/-- C9, witnessed at the scenario of the specification: trigger-sync while
trigger-reprocess is in flight is answered 409 with a body naming
reprocess, the store is untouched, and the lock ends released. -/
theorem jobLock_conflict_witness :
    (secondRequestOutcome Job.reprocess Job.sync "t0" "t1" c4Db).1.status = 409 ∧
    includes (secondRequestOutcome Job.reprocess Job.sync "t0" "t1" c4Db).1.body
      (jobName Job.reprocess) = true ∧
    includes (secondRequestOutcome Job.reprocess Job.sync "t0" "t1" c4Db).1.body
      "currently running" = true ∧
    (secondRequestOutcome Job.reprocess Job.sync "t0" "t1" c4Db).2.2 = c4Db ∧
    (firstRequestFinish Job.reprocess false
      (secondRequestOutcome Job.reprocess Job.sync "t0" "t1" c4Db).2.1).2.isRunning = false :=
  jobLock_conflict Job.reprocess Job.sync "t0" "t1" c4Db false

/-! ## C10: single-alert reprocess under a running job -/

/-- C10: a single-alert reprocess request rejected with a conflict because
a pipeline-wide job is running has nevertheless already reset the target
alert to unprocessed: the handler runs the UPDATE before the lock check
and the rejection path returns with the flag still false. -/
theorem reprocessSingle_resets_despite_conflict (alertId fresh : Nat) (now : String)
    (st : JobState) (db : Db) (h : st.isRunning = true) :
    (reprocessSingleAlert alertId now fresh st db).1.status = 409 ∧
    ∀ a ∈ (reprocessSingleAlert alertId now fresh st db).2.alerts,
      a.id = alertId → a.is_processed = false := by
  constructor
  · simp [reprocessSingleAlert, h]
  · intro a ha hid
    simp only [reprocessSingleAlert, h, if_true] at ha
    rcases List.mem_map.1 ha with ⟨b, _, hab⟩
    by_cases hb : b.id = alertId
    · simp only [hb, beq_self_eq_true, if_true] at hab
      rw [← hab]
    · have hbf : (b.id == alertId) = false := by simpa using hb
      rw [hbf] at hab
      simp only [Bool.false_eq_true, if_false] at hab
      rw [← hab] at hid
      exact absurd hid hb

/-- C10, witnessed: with a sync job holding the lock, reprocessing alert 5
of a store where it is marked processed yields 409 and a store where
alert 5 is unprocessed. -/
theorem reprocessSingle_resets_witness :
    (acquiredState Job.sync "t").isRunning = true ∧
    ((reprocessSingleAlert 5 "now" 0 (acquiredState Job.sync "t") c10Db).1.status = 409 ∧
      ∀ a ∈ (reprocessSingleAlert 5 "now" 0 (acquiredState Job.sync "t") c10Db).2.alerts,
        a.id = 5 → a.is_processed = false) :=
  ⟨rfl, reprocessSingle_resets_despite_conflict 5 0 "now" (acquiredState Job.sync "t") c10Db rfl⟩

/-! ## C6: technique mapping -/

/-- C6 counterexample: the claim says every keyword entry with a hit in
the lowercased title+description contributes a mapping; here the phishing
keyword sits in the title while the description is non-empty and
keyword-free, and because mapToMitre matches only
description || title, the result is just the default mapping and carries
no phishing technique. -/
theorem mapToMitre_title_ignored_cex :
    includes (toLowerJS (c6Alert.title ++ " " ++ c6Alert.description)) "phishing" = true ∧
    mapToMitre c6Alert = [defaultMitreMapping] ∧
    (mapToMitre c6Alert).all (fun m => !(m.technique_id == "T1566")) = true :=
  ⟨rfl, rfl, rfl⟩

/-- C6 amended: the Technique Mapper always emits at least one mapping;
the text it matches is the lowercased description, falling back to the
title only when the description is empty; every keyword entry with at
least one substring hit in that text contributes a mapping with its
technique and confidence (not first-match-only); and when no entry
matches, exactly the single default mapping T1190 with confidence 0.50
is emitted. -/
theorem mapToMitre_amended (a : AlertRec) :
    mapToMitre a ≠ [] ∧
    ((∀ p ∈ mitrePatterns, p.keywords.any (fun k => includes (mitreMatchText a) k) = false) →
      mapToMitre a = [defaultMitreMapping]) ∧
    (∀ p ∈ mitrePatterns, p.keywords.any (fun k => includes (mitreMatchText a) k) = true →
      ∃ m ∈ mapToMitre a, m.technique_id = p.technique_id ∧
        m.confidence_score = p.confidence) := by
  refine ⟨?_, ?_, ?_⟩
  · simp only [mapToMitre]
    split
    · simp
    · simp_all [List.isEmpty_iff]
  · intro hall
    have hnil : mitrePatterns.filter
        (fun p => p.keywords.any (fun k => includes (mitreMatchText a) k)) = [] :=
      List.filter_eq_nil_iff.2 (fun p hp => by simp [hall p hp])
    simp [mapToMitre, hnil]
  · intro p hp hhit
    have hmem : p ∈ mitrePatterns.filter
        (fun p => p.keywords.any (fun k => includes (mitreMatchText a) k)) :=
      List.mem_filter.2 ⟨hp, hhit⟩
    simp only [mapToMitre]
    split
    · next hemp =>
      rw [List.isEmpty_iff, List.map_eq_nil_iff] at hemp
      rw [hemp] at hmem
      simp at hmem
    · refine ⟨⟨p.technique_id, p.technique_name, p.tactic,
        "Mapped based on alert content analysis", p.confidence⟩, ?_, rfl, rfl⟩
      exact List.mem_map.2 ⟨p, hmem, rfl⟩

/-- C6 amended, witnessed: an alert whose description contains phishing
receives the phishing mapping T1566 with confidence 0.90. -/
theorem mapToMitre_amended_witness :
    ∃ m ∈ mapToMitre { c6Alert with description := "spear phishing wave" },
      m.technique_id = "T1566" ∧ m.confidence_score = 0.90 :=
  (mapToMitre_amended { c6Alert with description := "spear phishing wave" }).2.2
    ⟨["phishing", "spear phishing", "social engineering"],
      "T1566", "Phishing", "Initial Access", 0.90⟩
    (List.Mem.tail _ (List.Mem.tail _ (List.Mem.tail _ (List.Mem.tail _ (List.Mem.head _)))))
    rfl

/-! ## C4: locked rules under reprocessing -/

/-- C4: the automated reprocessing pass does not leave a locked rule
unchanged.  In a store whose single unprocessed alert owns a locked,
operator-edited rule, processAlerts deletes that rule row (its DELETE has
no lock guard) and inserts freshly generated, unlocked content: after the
pass no locked row and no row with the operator content remains, against
the claim, the specification, and the comments in the code itself. -/
theorem processAlerts_overwrites_locked_rule :
    (c4Db.yara_rules.filter (fun r => r.is_locked)).length = 1 ∧
    ((processAlerts "T0" 100 c4Db).yara_rules.filter (fun r => r.is_locked)) = [] ∧
    ((processAlerts "T0" 100 c4Db).yara_rules.filter (fun r => r.id == 7)) = [] ∧
    (processAlerts "T0" 100 c4Db).yara_rules.all
      (fun r => !(r.rule_content == "OPERATOR EDITED CONTENT")) = true ∧
    (processAlerts "T0" 100 c4Db).yara_rules.length = 1 := by
  refine ⟨rfl, rfl, rfl, rfl, rfl⟩

/-! ## C2: per-source batch error handling -/

/-- C2 counterexample: a per-source batch holding one good candidate and
one candidate whose insert raises a non-conflict error (a severity CHECK
violation) is not rolled back: the per-row catch swallows the error and
the good row persists after the batch. -/
theorem runSourceBatch_no_rollback_cex :
    severityAllowed cBadCand.severity = false ∧
    insertAlertRow 1 101 cBadCand [] = .error "CHECK constraint failed: severity" ∧
    runSourceBatch 1 100 [cGoodCand, cBadCand] [] ≠ [] ∧
    (runSourceBatch 1 100 [cGoodCand, cBadCand] []).map (fun r => r.external_id) =
      [cGoodCand.external_id] := by
  refine ⟨rfl, rfl, by decide, rfl⟩

/-! ## Upsert lemmas -/

theorem filter_map_congr (g : AlertRec → AlertRec) (p : AlertRec → Bool) (l : List AlertRec)
    (hpres : ∀ r, p (g r) = p r) (hfix : ∀ r, p r = true → g r = r) :
    (l.map g).filter p = l.filter p := by
  induction l with
  | nil => rfl
  | cons r rs ih =>
    rw [List.map_cons, List.filter_cons, List.filter_cons, hpres r]
    cases hr : p r with
    | true => rw [hfix r hr, ih]
    | false => exact ih

theorem length_filter_map (g : AlertRec → AlertRec) (p : AlertRec → Bool) (l : List AlertRec)
    (hpres : ∀ r, p (g r) = p r) :
    ((l.map g).filter p).length = (l.filter p).length := by
  induction l with
  | nil => rfl
  | cons r rs ih =>
    rw [List.map_cons, List.filter_cons, List.filter_cons, hpres r]
    cases hr : p r with
    | true => simp [ih]
    | false => exact ih

theorem keyMatch_conflict_update (sid : Nat) (e : String) (c : Candidate)
    (sid2 : Nat) (e2 : String) (r : AlertRec) :
    keyMatch sid e (if keyMatch sid2 e2 r then
      { r with title := c.title, description := c.description, severity := c.severity,
               updated_date := c.updated_date, is_processed := false } else r)
      = keyMatch sid e r := by
  split <;> rfl

theorem upsert_filter_not_source (sid nid : Nat) (c : Candidate) (tbl : List AlertRec) :
    (upsertAlert sid nid c tbl).filter (fun r => !(r.source_id == sid)) =
      tbl.filter (fun r => !(r.source_id == sid)) := by
  unfold upsertAlert
  split
  · apply filter_map_congr
    · intro r
      split <;> rfl
    · intro r hr
      have hk : keyMatch sid c.external_id r = false := by
        simp only [keyMatch]
        simp only [Bool.not_eq_true'] at hr
        simp [hr]
      rw [hk]
      simp
  · rw [List.filter_append]
    simp

theorem upsert_keyCount_mono (sid nid : Nat) (c : Candidate) (tbl : List AlertRec)
    (e : String) :
    (tbl.filter (keyMatch sid e)).length ≤
      ((upsertAlert sid nid c tbl).filter (keyMatch sid e)).length := by
  unfold upsertAlert
  split
  · rw [length_filter_map]
    intro r
    exact keyMatch_conflict_update sid e c sid c.external_id r
  · rw [List.filter_append, List.length_append]
    omega

theorem upsert_keyCount_other (sid nid : Nat) (c : Candidate) (tbl : List AlertRec)
    (e : String) (hne : e ≠ c.external_id) :
    ((upsertAlert sid nid c tbl).filter (keyMatch sid e)).length =
      (tbl.filter (keyMatch sid e)).length := by
  unfold upsertAlert
  split
  · rw [length_filter_map]
    intro r
    exact keyMatch_conflict_update sid e c sid c.external_id r
  · rw [List.filter_append]
    have hke : (c.external_id == e) = false := by
      simp only [beq_eq_false_iff_ne, ne_eq]
      exact fun h => hne h.symm
    simp [List.filter_cons, keyMatch, hke]

theorem upsert_keyCount_pos (sid nid : Nat) (c : Candidate) (tbl : List AlertRec) :
    1 ≤ ((upsertAlert sid nid c tbl).filter (keyMatch sid c.external_id)).length := by
  unfold upsertAlert
  split
  · next hany =>
    rw [length_filter_map]
    · obtain ⟨x, hx, hpx⟩ := List.any_eq_true.1 hany
      have hmem := List.mem_filter.2 ⟨hx, hpx⟩
      have := List.ne_nil_of_mem hmem
      have hlen := List.length_pos.2 this
      omega
    · intro r
      exact keyMatch_conflict_update sid c.external_id c sid c.external_id r
  · rw [List.filter_append, List.length_append]
    simp [List.filter_cons, keyMatch]

theorem keyCount_le_one_of_nodup (sid : Nat) (e : String) (tbl : List AlertRec)
    (h : (tbl.map (fun r => (r.source_id, r.external_id))).Nodup) :
    (tbl.filter (keyMatch sid e)).length ≤ 1 := by
  induction tbl with
  | nil => simp
  | cons r rs ih =>
    simp only [List.map_cons, List.nodup_cons] at h
    rw [List.filter_cons]
    cases hk : keyMatch sid e r with
    | true =>
      have hnil : rs.filter (keyMatch sid e) = [] := by
        apply List.filter_eq_nil_iff.2
        intro b hb hkb
        apply h.1
        refine List.mem_map.2 ⟨b, hb, ?_⟩
        simp only [keyMatch, Bool.and_eq_true, beq_iff_eq] at hk hkb
        rw [hkb.1, hkb.2, hk.1, hk.2]
      simp [hnil]
    | false => simpa using ih h.2

theorem upsert_keyCount_le_one (sid nid : Nat) (c : Candidate) (tbl : List AlertRec)
    (h : (tbl.filter (keyMatch sid c.external_id)).length ≤ 1) :
    ((upsertAlert sid nid c tbl).filter (keyMatch sid c.external_id)).length ≤ 1 := by
  unfold upsertAlert
  split
  · rw [length_filter_map]
    · exact h
    · intro r
      exact keyMatch_conflict_update sid c.external_id c sid c.external_id r
  · next hany =>
    rw [List.filter_append, List.length_append]
    have hnil : tbl.filter (keyMatch sid c.external_id) = [] := by
      apply List.filter_eq_nil_iff.2
      intro b hb hkb
      have : tbl.any (keyMatch sid c.external_id) = true := List.any_eq_true.2 ⟨b, hb, hkb⟩
      simp [this] at hany
    rw [hnil]
    simpa using List.length_filter_le (keyMatch sid c.external_id) _

theorem upsert_conflict_fields (sid nid : Nat) (c : Candidate) (tbl : List AlertRec)
    (hany : tbl.any (keyMatch sid c.external_id) = true) :
    ∀ r ∈ upsertAlert sid nid c tbl, keyMatch sid c.external_id r = true →
      r.title = c.title ∧ r.description = c.description ∧ r.severity = c.severity ∧
        r.updated_date = c.updated_date ∧ r.is_processed = false := by
  unfold upsertAlert
  rw [hany]
  simp only [if_true]
  intro r hr hkey
  rcases List.mem_map.1 hr with ⟨b, _, hab⟩
  by_cases hkb : keyMatch sid c.external_id b = true
  · rw [hkb] at hab
    simp only [if_true] at hab
    rw [← hab]
    exact ⟨rfl, rfl, rfl, rfl, rfl⟩
  · simp only [Bool.not_eq_true] at hkb
    rw [hkb] at hab
    simp only [Bool.false_eq_true, if_false] at hab
    rw [← hab] at hkey
    rw [hkey] at hkb
    cases hkb

/-! ## C1: upsert of a re-fetched alert -/

/-- C1: in a store satisfying the UNIQUE(source_id, external_id)
invariant, ingesting two candidates with the same external identifier for
the same source, with differing content, leaves exactly one row with that
key, whose title, description, severity and updated_date are those of the
second fetch and whose processed flag is false. -/
theorem upsert_refetch (sid id1 id2 : Nat) (c1 c2 : Candidate) (tbl : List AlertRec)
    (hkey : (tbl.map (fun r => (r.source_id, r.external_id))).Nodup)
    (hsame : c1.external_id = c2.external_id)
    (_hdiff : c1.title ≠ c2.title ∨ c1.description ≠ c2.description ∨
      c1.severity ≠ c2.severity ∨ c1.updated_date ≠ c2.updated_date) :
    (((upsertAlert sid id2 c2 (upsertAlert sid id1 c1 tbl)).filter
        (keyMatch sid c2.external_id)).length = 1) ∧
    (∀ r ∈ upsertAlert sid id2 c2 (upsertAlert sid id1 c1 tbl),
      keyMatch sid c2.external_id r = true →
        r.title = c2.title ∧ r.description = c2.description ∧ r.severity = c2.severity ∧
          r.updated_date = c2.updated_date ∧ r.is_processed = false) := by
  have hpos1 : 1 ≤ ((upsertAlert sid id1 c1 tbl).filter (keyMatch sid c2.external_id)).length := by
    rw [← hsame]
    exact upsert_keyCount_pos sid id1 c1 tbl
  have hle1 : ((upsertAlert sid id1 c1 tbl).filter (keyMatch sid c2.external_id)).length ≤ 1 := by
    rw [← hsame]
    exact upsert_keyCount_le_one sid id1 c1 tbl
      (keyCount_le_one_of_nodup sid c1.external_id tbl hkey)
  have hany : (upsertAlert sid id1 c1 tbl).any (keyMatch sid c2.external_id) = true := by
    have hne : (upsertAlert sid id1 c1 tbl).filter (keyMatch sid c2.external_id) ≠ [] := by
      intro hnil
      rw [hnil] at hpos1
      simp at hpos1
    obtain ⟨x, hx⟩ := List.exists_mem_of_ne_nil _ hne
    have := List.mem_filter.1 hx
    exact List.any_eq_true.2 ⟨x, this.1, this.2⟩
  constructor
  · have hposf := upsert_keyCount_pos sid id2 c2 (upsertAlert sid id1 c1 tbl)
    have hlef := upsert_keyCount_le_one sid id2 c2 (upsertAlert sid id1 c1 tbl) hle1
    omega
  · exact upsert_conflict_fields sid id2 c2 (upsertAlert sid id1 c1 tbl) hany

/-- C1, witnessed: ingesting cand1W then cand2W into an empty store keeps
one row with the key, carrying the fields of cand2W with processed
false. -/
theorem upsert_refetch_witness :
    ((([] : List AlertRec).map (fun r => (r.source_id, r.external_id))).Nodup ∧
      cand1W.external_id = cand2W.external_id ∧
      (cand1W.title ≠ cand2W.title ∨ cand1W.description ≠ cand2W.description ∨
        cand1W.severity ≠ cand2W.severity ∨ cand1W.updated_date ≠ cand2W.updated_date)) ∧
    ((((upsertAlert 1 11 cand2W (upsertAlert 1 10 cand1W [])).filter
        (keyMatch 1 cand2W.external_id)).length = 1) ∧
      (∀ r ∈ upsertAlert 1 11 cand2W (upsertAlert 1 10 cand1W []),
        keyMatch 1 cand2W.external_id r = true →
          r.title = cand2W.title ∧ r.description = cand2W.description ∧
            r.severity = cand2W.severity ∧ r.updated_date = cand2W.updated_date ∧
            r.is_processed = false)) :=
  ⟨⟨by decide, rfl, by decide⟩,
    upsert_refetch 1 10 11 cand1W cand2W [] (by decide) rfl (by decide)⟩

/-! ## C2 amended: batch commits good rows, skips bad rows -/

theorem runSourceBatch_nil (sid baseId : Nat) (tbl : List AlertRec) :
    runSourceBatch sid baseId [] tbl = tbl := rfl

theorem runSourceBatch_cons (sid baseId : Nat) (c : Candidate) (cs : List Candidate)
    (tbl : List AlertRec) :
    runSourceBatch sid baseId (c :: cs) tbl =
      if severityAllowed c.severity then
        runSourceBatch sid (baseId + 1) cs (upsertAlert sid baseId c tbl)
      else runSourceBatch sid (baseId + 1) cs tbl := by
  unfold runSourceBatch insertAlertRow
  simp only [List.foldl]
  by_cases hsev : severityAllowed c.severity = true <;> simp [hsev]

theorem runSourceBatch_keyCount_mono (sid baseId : Nat) (cands : List Candidate)
    (tbl : List AlertRec) (e : String) :
    (tbl.filter (keyMatch sid e)).length ≤
      ((runSourceBatch sid baseId cands tbl).filter (keyMatch sid e)).length := by
  induction cands generalizing tbl baseId with
  | nil => exact Nat.le_refl _
  | cons c cs ih =>
    rw [runSourceBatch_cons]
    split
    · exact Nat.le_trans (upsert_keyCount_mono sid baseId c tbl e) (ih _ _)
    · exact ih _ _

theorem runSourceBatch_keyCount_invariant (sid baseId : Nat) (cands : List Candidate)
    (tbl : List AlertRec) (e : String)
    (hmates : ∀ c2 ∈ cands, c2.external_id = e → severityAllowed c2.severity = false) :
    ((runSourceBatch sid baseId cands tbl).filter (keyMatch sid e)).length =
      (tbl.filter (keyMatch sid e)).length := by
  induction cands generalizing tbl baseId with
  | nil => rfl
  | cons c0 cs ih =>
    have hmates' : ∀ c2 ∈ cs, c2.external_id = e → severityAllowed c2.severity = false :=
      fun c2 h2 he => hmates c2 (List.mem_cons.2 (Or.inr h2)) he
    rw [runSourceBatch_cons]
    cases hsev : severityAllowed c0.severity with
    | true =>
      rw [if_pos rfl]
      have hne : e ≠ c0.external_id := by
        intro he
        have := hmates c0 (List.mem_cons.2 (Or.inl rfl)) he.symm
        rw [this] at hsev
        cases hsev
      rw [ih _ _ hmates', upsert_keyCount_other sid baseId c0 tbl e hne]
    | false =>
      rw [if_neg (by simp)]
      exact ih _ _ hmates'

/-- C2 amended: a row of the per-source batch whose insert raises a
non-conflict error is caught per row and skipped rather than aborting the
batch: rows of other sources are exactly preserved, every valid candidate
of the batch has a row under its key afterwards (the batch commits), and
an invalid candidate whose key no valid batch mate shares leaves the row
count under its key unchanged (nothing of it persists).  Conflicts are
resolved inside the upsert and never raise. -/
theorem runSourceBatch_amended (sid baseId : Nat) (cands : List Candidate)
    (tbl : List AlertRec) :
    ((runSourceBatch sid baseId cands tbl).filter (fun r => !(r.source_id == sid)) =
      tbl.filter (fun r => !(r.source_id == sid))) ∧
    (∀ c ∈ cands, severityAllowed c.severity = true →
      1 ≤ ((runSourceBatch sid baseId cands tbl).filter (keyMatch sid c.external_id)).length) ∧
    (∀ c ∈ cands, severityAllowed c.severity = false →
      (∀ c2 ∈ cands, c2.external_id = c.external_id → severityAllowed c2.severity = false) →
      ((runSourceBatch sid baseId cands tbl).filter (keyMatch sid c.external_id)).length =
        (tbl.filter (keyMatch sid c.external_id)).length) := by
  refine ⟨?_, ?_, ?_⟩
  · induction cands generalizing tbl baseId with
    | nil => rfl
    | cons c cs ih =>
      rw [runSourceBatch_cons]
      split
      · rw [ih, upsert_filter_not_source]
      · exact ih _ _
  · intro c hc hval
    induction cands generalizing tbl baseId with
    | nil => cases hc
    | cons c0 cs ih =>
      rw [runSourceBatch_cons]
      rcases List.mem_cons.1 hc with rfl | hc0
      · rw [if_pos hval]
        exact Nat.le_trans (upsert_keyCount_pos sid baseId c tbl)
          (runSourceBatch_keyCount_mono sid (baseId + 1) cs _ c.external_id)
      · split
        · exact ih _ _ hc0
        · exact ih _ _ hc0
  · intro c hc hval hmates
    exact runSourceBatch_keyCount_invariant sid baseId cands tbl c.external_id
      (fun c2 h2 he => hmates c2 h2 he)

/-- C2 amended, witnessed: in the two-candidate batch with one CHECK
violation, the good row is present afterwards and the bad key holds no
row. -/
theorem runSourceBatch_amended_witness :
    (1 ≤ ((runSourceBatch 1 100 [cGoodCand, cBadCand] []).filter
      (keyMatch 1 cGoodCand.external_id)).length) ∧
    ((runSourceBatch 1 100 [cGoodCand, cBadCand] []).filter
      (keyMatch 1 cBadCand.external_id)).length =
      (([] : List AlertRec).filter (keyMatch 1 cBadCand.external_id)).length :=
  ⟨(runSourceBatch_amended 1 100 [cGoodCand, cBadCand] []).2.1 cGoodCand
      (by decide) (by decide),
    (runSourceBatch_amended 1 100 [cGoodCand, cBadCand] []).2.2 cBadCand
      (by decide) (by decide) (by decide)⟩

/-! ## Deduplication lemmas -/

theorem mem_distinctAux (l : List String) (seen : List String) (x : String) :
    x ∈ distinctAux seen l ↔ (x ∈ l ∧ x ∉ seen) := by
  induction l generalizing seen with
  | nil => simp [distinctAux]
  | cons y ys ih =>
    simp only [distinctAux]
    split
    · next hseen =>
      rw [ih]
      simp only [List.mem_cons]
      constructor
      · rintro ⟨hmem, hns⟩
        exact ⟨Or.inr hmem, hns⟩
      · rintro ⟨hy | hmem, hns⟩
        · subst hy
          exact absurd (by simpa using hseen) hns
        · exact ⟨hmem, hns⟩
    · next hseen =>
      simp only [List.mem_cons, ih]
      constructor
      · rintro (rfl | ⟨hmem, hns⟩)
        · exact ⟨Or.inl rfl, by simpa using hseen⟩
        · refine ⟨Or.inr hmem, fun hx => hns (Or.inr hx)⟩
      · rintro ⟨rfl | hmem, hns⟩
        · exact Or.inl rfl
        · by_cases hxy : x = y
          · exact Or.inl hxy
          · exact Or.inr ⟨hmem, by simp [hxy, hns]⟩

theorem sortEntriesDesc_head_max (l : List AlertRec) (k : AlertRec) (rest : List AlertRec)
    (h : sortEntriesDesc l = k :: rest) (a : AlertRec) (ha : a ∈ l) : dedupRel k a := by
  have hs := List.sorted_insertionSort dedupRel l
  rw [show List.insertionSort dedupRel l = sortEntriesDesc l from rfl, h] at hs
  have hmem : a ∈ sortEntriesDesc l :=
    ((List.perm_insertionSort dedupRel l).symm.mem_iff).1 ha
  rw [h] at hmem
  rcases List.mem_cons.1 hmem with rfl | hrest
  · exact Or.inr ⟨rfl, Nat.le_refl _⟩
  · exact List.rel_of_sorted_cons hs a hrest

theorem filter_length_one_of_iff (l : List AlertRec) (p : AlertRec → Bool) (k : AlertRec)
    (hmem : k ∈ l) (hcount : l.count k = 1)
    (hiff : ∀ a ∈ l, (p a = true ↔ a = k)) :
    (l.filter p).length = 1 := by
  induction l with
  | nil => cases hmem
  | cons a as ih =>
    by_cases hak : a = k
    · subst hak
      have hpa : p a = true := (hiff a (List.mem_cons.2 (Or.inl rfl))).2 rfl
      have hnas : a ∉ as := by
        intro hin
        rw [List.count_cons_self] at hcount
        have := List.count_pos_iff.2 hin
        omega
      have hnil : as.filter p = [] := by
        apply List.filter_eq_nil_iff.2
        intro b hb hpb
        have : b = a := (hiff b (List.mem_cons.2 (Or.inr hb))).1 hpb
        exact hnas (this ▸ hb)
      rw [List.filter_cons, if_pos hpa, hnil]
      rfl
    · have hpa : p a = false := by
        cases hp : p a with
        | true => exact absurd ((hiff a (List.mem_cons.2 (Or.inl rfl))).1 hp) hak
        | false => rfl
      have hkas : k ∈ as := by
        rcases List.mem_cons.1 hmem with rfl | h2
        · exact absurd rfl hak
        · exact h2
      have hcount' : as.count k = 1 := by
        rw [List.count_cons_of_ne (fun h => hak h.symm)] at hcount
        exact hcount
      rw [List.filter_cons, if_neg (by simp [hpa])]
      exact ih hkas hcount' (fun b hb => hiff b (List.mem_cons.2 (Or.inr hb)))

/-! ## C5: deduplication -/

/-- C5: in a store with distinct alert row ids where more than one alert
carries the external_id e, the deduplication pass leaves exactly one
alert with that external_id; the survivor dominates every alert that had
that external_id in the dedupRel ordering (strictly later published_date,
or equal published_date and larger-or-equal id, i.e. latest
published_date with ties broken by the higher internal identifier); and
afterwards every rule and mapping row references a surviving alert (no
orphans). -/
theorem removeDuplicates_dedups (db : Db) (e : String)
    (hids : (db.alerts.map (fun a => a.id)).Nodup)
    (hN : 1 < (db.alerts.filter (fun a => a.external_id == e)).length) :
    (((removeDuplicates db).alerts.filter (fun a => a.external_id == e)).length = 1) ∧
    (∀ k2 ∈ (removeDuplicates db).alerts, k2.external_id = e →
      ∀ a ∈ db.alerts, a.external_id = e → dedupRel k2 a) ∧
    (∀ r ∈ (removeDuplicates db).yara_rules,
      ∃ a ∈ (removeDuplicates db).alerts, a.id = r.alert_id) ∧
    (∀ m ∈ (removeDuplicates db).mappings,
      ∃ a ∈ (removeDuplicates db).alerts, a.id = m.alert_id) := by
  have hgsub : ((db.alerts.filter (fun a => a.external_id == e)).map (fun a => a.id)).Sublist
      (db.alerts.map (fun a => a.id)) :=
    (List.filter_sublist db.alerts).map _
  have hgid : ((db.alerts.filter (fun a => a.external_id == e)).map (fun a => a.id)).Nodup :=
    List.Nodup.sublist hgsub hids
  have hperm := List.perm_insertionSort dedupRel (db.alerts.filter (fun a => a.external_id == e))
  have hlen : (sortEntriesDesc (db.alerts.filter (fun a => a.external_id == e))).length =
      (db.alerts.filter (fun a => a.external_id == e)).length := hperm.length_eq
  cases hsort : sortEntriesDesc (db.alerts.filter (fun a => a.external_id == e)) with
  | nil =>
    rw [hsort] at hlen
    simp at hlen
    omega
  | cons k rest =>
  have hkg : k ∈ db.alerts.filter (fun a => a.external_id == e) := by
    have hks : k ∈ sortEntriesDesc (db.alerts.filter (fun a => a.external_id == e)) := by
      rw [hsort]
      exact List.mem_cons_self _ _
    exact hperm.mem_iff.1 hks
  have hkdb : k ∈ db.alerts := (List.mem_filter.1 hkg).1
  have hke : k.external_id = e := by simpa using (List.mem_filter.1 hkg).2
  have hedup : e ∈ dupKeys db := by
    apply List.mem_filter.2
    refine ⟨?_, by simpa using hN⟩
    apply (mem_distinctAux _ [] e).2
    exact ⟨List.mem_map.2 ⟨k, hkdb, hke⟩, by simp⟩
  have hinj := List.inj_on_of_nodup_map hids
  have hdelmem : ∀ i : Nat, i ∈ dedupIdsToDelete db ↔
      ∃ e0, e0 ∈ dupKeys db ∧ ∃ b,
        b ∈ (sortEntriesDesc (db.alerts.filter (fun a => a.external_id == e0))).drop 1 ∧
        b.id = i := by
    intro i
    unfold dedupIdsToDelete
    rw [List.mem_flatMap]
    constructor
    · rintro ⟨e0, he0, hi⟩
      rcases List.mem_map.1 hi with ⟨b, hb, hbi⟩
      exact ⟨e0, he0, b, hb, hbi⟩
    · rintro ⟨e0, he0, b, hb, hbi⟩
      exact ⟨e0, he0, List.mem_map.2 ⟨b, hb, hbi⟩⟩
  have hsurv : ∀ a ∈ db.alerts.filter (fun a => a.external_id == e),
      ((!((dedupIdsToDelete db).contains a.id)) = true ↔ a = k) := by
    intro a hag
    constructor
    · intro hsv
      by_contra hak
      have has : a ∈ sortEntriesDesc (db.alerts.filter (fun a => a.external_id == e)) :=
        hperm.mem_iff.2 hag
      rw [hsort] at has
      rcases List.mem_cons.1 has with rfl | harest
      · exact hak rfl
      · have hdel : a.id ∈ dedupIdsToDelete db := by
          apply (hdelmem a.id).2
          refine ⟨e, hedup, a, ?_, rfl⟩
          rw [hsort]
          simpa using harest
        have hcon : (dedupIdsToDelete db).contains a.id = true := List.elem_iff.2 hdel
        rw [hcon] at hsv
        simp at hsv
    · rintro rfl
      by_contra hns
      have hcon : (dedupIdsToDelete db).contains a.id = true := by
        cases hc : (dedupIdsToDelete db).contains a.id with
        | true => rfl
        | false =>
          rw [hc] at hns
          exact absurd rfl hns
      have hdel : a.id ∈ dedupIdsToDelete db := List.elem_iff.1 hcon
      obtain ⟨e0, he0, b, hb, hbid⟩ := (hdelmem a.id).1 hdel
      have hbsort : b ∈ sortEntriesDesc (db.alerts.filter (fun x => x.external_id == e0)) :=
        List.mem_of_mem_drop hb
      have hbg0 : b ∈ db.alerts.filter (fun x => x.external_id == e0) :=
        (List.perm_insertionSort dedupRel _).mem_iff.1 hbsort
      have hbdb : b ∈ db.alerts := (List.mem_filter.1 hbg0).1
      have hbe0 : b.external_id = e0 := by simpa using (List.mem_filter.1 hbg0).2
      have hbk : b = a := hinj hbdb ((List.mem_filter.1 hag).1) hbid
      have he0e : e0 = e := by
        rw [← hbe0, hbk]
        simpa using (List.mem_filter.1 hag).2
      rw [he0e, hsort] at hb
      simp only [List.drop_succ_cons, List.drop_zero] at hb
      rw [hbk] at hb
      have hsids : ((sortEntriesDesc (db.alerts.filter
          (fun x => x.external_id == e))).map (fun x => x.id)).Nodup :=
        (hperm.map (fun x => x.id)).nodup_iff.2 hgid
      rw [hsort] at hsids
      simp only [List.map_cons, List.nodup_cons] at hsids
      exact hsids.1 (List.mem_map.2 ⟨a, hb, rfl⟩)
  have hsurvount : ((dedupSurvivors db).filter (fun a => a.external_id == e)).length = 1 := by
    unfold dedupSurvivors
    rw [List.filter_filter]
    have hcomm : db.alerts.filter
        (fun a => (a.external_id == e) && !((dedupIdsToDelete db).contains a.id)) =
        db.alerts.filter
        (fun a => (!((dedupIdsToDelete db).contains a.id)) && (a.external_id == e)) := by
      apply List.filter_congr
      intro a _
      exact Bool.and_comm _ _
    rw [hcomm, ← List.filter_filter]
    exact filter_length_one_of_iff _ _ k hkg
      (List.count_eq_one_of_mem (List.Nodup.of_map _ hgid) hkg) hsurv
  refine ⟨hsurvount, ?_, ?_, ?_⟩
  · intro k2 hk2 hk2e a ha hae
    have hk2f := List.mem_filter.1 hk2
    have hk2g : k2 ∈ db.alerts.filter (fun a => a.external_id == e) :=
      List.mem_filter.2 ⟨hk2f.1, by simp [hk2e]⟩
    have hk2k : k2 = k := (hsurv k2 hk2g).1 hk2f.2
    rw [hk2k]
    exact sortEntriesDesc_head_max _ k rest hsort a (List.mem_filter.2 ⟨ha, by simp [hae]⟩)
  · intro r hr
    have hrf := List.mem_filter.1 hr
    have hmm : r.alert_id ∈ (dedupSurvivors db).map (fun a => a.id) :=
      List.elem_iff.1 hrf.2
    rcases List.mem_map.1 hmm with ⟨a, hasurv, haid⟩
    exact ⟨a, hasurv, haid⟩
  · intro m hm
    have hmf := List.mem_filter.1 hm
    have hmm : m.alert_id ∈ (dedupSurvivors db).map (fun a => a.id) :=
      List.elem_iff.1 hmf.2
    rcases List.mem_map.1 hmm with ⟨a, hasurv, haid⟩
    exact ⟨a, hasurv, haid⟩

/-- C5, witnessed on a store with three alerts sharing CVE-7 (ids 1, 2, 3,
the last two tying on published_date) plus rule and mapping rows. -/
theorem removeDuplicates_dedups_witness :
    ((c5Db.alerts.map (fun a => a.id)).Nodup ∧
      1 < (c5Db.alerts.filter (fun a => a.external_id == "CVE-7")).length) ∧
    ((((removeDuplicates c5Db).alerts.filter (fun a => a.external_id == "CVE-7")).length = 1) ∧
      (∀ k2 ∈ (removeDuplicates c5Db).alerts, k2.external_id = "CVE-7" →
        ∀ a ∈ c5Db.alerts, a.external_id = "CVE-7" → dedupRel k2 a) ∧
      (∀ r ∈ (removeDuplicates c5Db).yara_rules,
        ∃ a ∈ (removeDuplicates c5Db).alerts, a.id = r.alert_id) ∧
      (∀ m ∈ (removeDuplicates c5Db).mappings,
        ∃ a ∈ (removeDuplicates c5Db).alerts, a.id = m.alert_id)) :=
  ⟨⟨by decide, by decide⟩, removeDuplicates_dedups c5Db "CVE-7" (by decide) (by decide)⟩

end CyberAlert
